import Mathlib

/-!
Verification of the concurrent record-management engine of `src/app.py`
(class `DataManager`): in-memory record collection, MD5 content fingerprint,
batched persistence with temp-file + atomic rename, and per-user record
checkout.  Python machine state is embedded shallowly: the `DataManager`
object becomes a structure threaded through pure functions, the filesystem
becomes an explicit `Disk` value, `datetime.now()` becomes an injected clock
(`now : Nat`, seconds), and I/O failures of the persistence path become an
explicit `FlushFault` oracle.
-/

/-- JSON value as used by the records of `tmp_lh_links.json`: string, number,
boolean or null (numbers are modelled as integers). -/
inductive JValue where
  | str (s : String)
  | num (n : Int)
  | bool (b : Bool)
  | null
deriving Repr, DecidableEq

/-- A record is a Python `dict`: an insertion-ordered association list from
string keys to values; genuine dicts have pairwise-distinct keys. -/
abbrev Record := List (String × JValue)

/-- Python `dict.get(k)`: value at the first occurrence of key `k`, else `None`. -/
def dictGet {α : Type} (m : List (String × α)) (k : String) : Option α :=
  match m with
  | [] => none
  | p :: t => if p.1 = k then some p.2 else dictGet t k

/-- Python `d[k] = v`: replace the value at an existing key in place (keeping
its position, as CPython dicts do), otherwise append the new binding. -/
def dictSet {α : Type} (m : List (String × α)) (k : String) (v : α) : List (String × α) :=
  match m with
  | [] => [(k, v)]
  | p :: t => if p.1 = k then (k, v) :: t else p :: dictSet t k v

/-- Python `del d[k]` (tolerating a missing key, used after an `in` check):
remove the first binding of key `k`. -/
def dictDel {α : Type} (m : List (String × α)) (k : String) : List (String × α) :=
  match m with
  | [] => []
  | p :: t => if p.1 = k then t else p :: dictDel t k

/-- Keys of a dict, in insertion order (`list(d.keys())`). -/
def dictKeys {α : Type} (m : List (String × α)) : List String := m.map Prod.fst

/-- Python truthiness of an `Optional[str]`: `None` and `""` are falsy. -/
def truthyStr : Option String → Bool
  | none => false
  | some s => s ≠ ""

/-! ### Canonical JSON serialization: `json.dumps(data, sort_keys=True)`
with CPython's defaults (`ensure_ascii=True`, separators `", "` / `": "`). -/

/-- Lowercase hex digit. -/
def hexDigitChar (n : Nat) : Char :=
  if n < 10 then Char.ofNat (48 + n) else Char.ofNat (87 + n)

/-- Four lowercase hex digits, as in CPython's `\uXXXX` escapes. -/
def hex4 (n : Nat) : String :=
  String.mk [hexDigitChar (n / 4096 % 16), hexDigitChar (n / 256 % 16),
             hexDigitChar (n / 16 % 16), hexDigitChar (n % 16)]

/-- CPython `json` ASCII string escaping of one character
(`py_encode_basestring_ascii`): short escapes for quote, backslash and the
common control characters, `\uXXXX` for other controls and all non-ASCII,
surrogate pairs above the BMP. -/
def jsonEscapeChar (c : Char) : String :=
  if c = '"' then "\\\""
  else if c = '\\' then "\\\\"
  else if c.toNat = 8 then "\\b"
  else if c.toNat = 9 then "\\t"
  else if c.toNat = 10 then "\\n"
  else if c.toNat = 12 then "\\f"
  else if c.toNat = 13 then "\\r"
  else if c.toNat < 32 then "\\u" ++ hex4 c.toNat
  else if c.toNat < 127 then String.singleton c
  else if c.toNat < 65536 then "\\u" ++ hex4 c.toNat
  else
    let v := c.toNat - 65536
    "\\u" ++ hex4 (55296 + v / 1024) ++ "\\u" ++ hex4 (56320 + v % 1024)

/-- JSON serialization of a string literal. -/
def jsonStr (s : String) : String :=
  "\"" ++ String.join (s.data.map jsonEscapeChar) ++ "\""

/-- JSON serialization of a scalar value (`json.dumps` on str/int/bool/None). -/
def jsonValue : JValue → String
  | .str s => jsonStr s
  | .num n => toString n
  | .bool b => if b then "true" else "false"
  | .null => "null"

/-- `sort_keys=True`: the items of one record ordered lexicographically by key
(Python compares `str` by code point, as Lean's `String` order does). -/
def sortKeysRec (r : Record) : Record :=
  List.insertionSort (fun p q => p.1 ≤ q.1) r

/-- JSON serialization of one record with sorted keys and the default
separators: `{"k1": v1, "k2": v2}`. -/
def jsonRecord (r : Record) : String :=
  "\x7b" ++ String.intercalate ", "
    ((sortKeysRec r).map (fun p => jsonStr p.1 ++ ": " ++ jsonValue p.2)) ++ "\x7d"

/-- `json.dumps(data, sort_keys=True)` for the whole collection. -/
def canonicalJson (data : List Record) : String :=
  "[" ++ String.intercalate ", " (data.map jsonRecord) ++ "]"

/-! ### MD5 (`hashlib.md5(...).hexdigest()`), over `Nat` with explicit
`% 2^32` where 32-bit overflow matters. -/

/-- UTF-8 bytes of one character (`str.encode()`); the canonical JSON above is
pure ASCII, where this is the identity on code points. -/
def utf8Bytes (c : Char) : List Nat :=
  let n := c.toNat
  if n < 128 then [n]
  else if n < 2048 then [192 + n / 64, 128 + n % 64]
  else if n < 65536 then [224 + n / 4096, 128 + n / 64 % 64, 128 + n % 64]
  else [240 + n / 262144, 128 + n / 4096 % 64, 128 + n / 64 % 64, 128 + n % 64]

/-- UTF-8 encoding of a string as a byte list. -/
def strBytes (s : String) : List Nat := (s.data.map utf8Bytes).flatten

/-- The 64 MD5 round constants `K[i] = floor(abs(sin(i+1)) * 2^32)`. -/
def md5K : List Nat :=
  [0xd76aa478, 0xe8c7b756, 0x242070db, 0xc1bdceee, 0xf57c0faf, 0x4787c62a,
   0xa8304613, 0xfd469501, 0x698098d8, 0x8b44f7af, 0xffff5bb1, 0x895cd7be,
   0x6b901122, 0xfd987193, 0xa679438e, 0x49b40821, 0xf61e2562, 0xc040b340,
   0x265e5a51, 0xe9b6c7aa, 0xd62f105d, 0x02441453, 0xd8a1e681, 0xe7d3fbc8,
   0x21e1cde6, 0xc33707d6, 0xf4d50d87, 0x455a14ed, 0xa9e3e905, 0xfcefa3f8,
   0x676f02d9, 0x8d2a4c8a, 0xfffa3942, 0x8771f681, 0x6d9d6122, 0xfde5380c,
   0xa4beea44, 0x4bdecfa9, 0xf6bb4b60, 0xbebfbc70, 0x289b7ec6, 0xeaa127fa,
   0xd4ef3085, 0x04881d05, 0xd9d4d039, 0xe6db99e5, 0x1fa27cf8, 0xc4ac5665,
   0xf4292244, 0x432aff97, 0xab9423a7, 0xfc93a039, 0x655b59c3, 0x8f0ccc92,
   0xffeff47d, 0x85845dd1, 0x6fa87e4f, 0xfe2ce6e0, 0xa3014314, 0x4e0811a1,
   0xf7537e82, 0xbd3af235, 0x2ad7d2bb, 0xeb86d391]

/-- The MD5 per-round left-rotation amounts. -/
def md5S : List Nat :=
  [7, 12, 17, 22, 7, 12, 17, 22, 7, 12, 17, 22, 7, 12, 17, 22,
   5, 9, 14, 20, 5, 9, 14, 20, 5, 9, 14, 20, 5, 9, 14, 20,
   4, 11, 16, 23, 4, 11, 16, 23, 4, 11, 16, 23, 4, 11, 16, 23,
   6, 10, 15, 21, 6, 10, 15, 21, 6, 10, 15, 21, 6, 10, 15, 21]

/-- 32-bit left rotation. -/
def leftrot (x s : Nat) : Nat :=
  ((x <<< s) ||| (x >>> (32 - s))) % 4294967296

/-- 32-bit bitwise complement. -/
def not32 (x : Nat) : Nat := x ^^^ 4294967295

/-- Four little-endian bytes of a 32-bit word. -/
def wordBytesLE (w : Nat) : List Nat :=
  [w % 256, w / 256 % 256, w / 65536 % 256, w / 16777216 % 256]

/-- The sixteen little-endian 32-bit words of a 64-byte block. -/
def blockWord (block : List Nat) (g : Nat) : Nat :=
  block.getD (4 * g) 0 + 256 * block.getD (4 * g + 1) 0 +
    65536 * block.getD (4 * g + 2) 0 + 16777216 * block.getD (4 * g + 3) 0

/-- One MD5 round on the state `(a, b, c, d)`. -/
def md5Round (block : List Nat) (st : Nat × Nat × Nat × Nat) (i : Nat) :
    Nat × Nat × Nat × Nat :=
  let a := st.1
  let b := st.2.1
  let c := st.2.2.1
  let d := st.2.2.2
  let f :=
    if i < 16 then (b &&& c) ||| (not32 b &&& d)
    else if i < 32 then (d &&& b) ||| (not32 d &&& c)
    else if i < 48 then b ^^^ c ^^^ d
    else c ^^^ (b ||| not32 d)
  let g :=
    if i < 16 then i
    else if i < 32 then (5 * i + 1) % 16
    else if i < 48 then (3 * i + 5) % 16
    else (7 * i) % 16
  let F := (a + f + md5K.getD i 0 + blockWord block g) % 4294967296
  (d, (b + leftrot F (md5S.getD i 0)) % 4294967296, b, c)

/-- MD5 compression of one 64-byte block into the running state. -/
def md5Compress (h : Nat × Nat × Nat × Nat) (block : List Nat) :
    Nat × Nat × Nat × Nat :=
  let r := (List.range 64).foldl (md5Round block) h
  ((h.1 + r.1) % 4294967296, (h.2.1 + r.2.1) % 4294967296,
   (h.2.2.1 + r.2.2.1) % 4294967296, (h.2.2.2 + r.2.2.2) % 4294967296)

/-- Little-endian bytes of the 64-bit message bit length. -/
def md5LenBytes (len : Nat) : List Nat :=
  let b := (8 * len) % 18446744073709551616
  [b % 256, b / 256 % 256, b / 65536 % 256, b / 16777216 % 256,
   b / 4294967296 % 256, b / 1099511627776 % 256,
   b / 281474976710656 % 256, b / 72057594037927936 % 256]

/-- MD5 padding: a `0x80` byte, zeros to 56 mod 64, then the bit length. -/
def md5Pad (msg : List Nat) : List Nat :=
  msg ++ [128] ++ List.replicate ((119 - msg.length % 64) % 64) 0 ++
    md5LenBytes msg.length

/-- Split a byte list into 64-byte blocks. -/
def chunks64 (l : List Nat) : List (List Nat) :=
  if h : l = [] then []
  else l.take 64 :: chunks64 (l.drop 64)
termination_by l.length
decreasing_by
  simp only [List.length_drop]
  exact Nat.sub_lt (List.length_pos.mpr h) (by omega)

/-- The 16 digest bytes of a byte message. -/
def md5Bytes (msg : List Nat) : List Nat :=
  let r := (chunks64 (md5Pad msg)).foldl md5Compress
    (1732584193, 4023233417, 2562383102, 271733878)
  wordBytesLE r.1 ++ wordBytesLE r.2.1 ++ wordBytesLE r.2.2.1 ++ wordBytesLE r.2.2.2

/-- Two lowercase hex digits of a byte. -/
def byteHex (b : Nat) : String :=
  String.mk [hexDigitChar (b / 16), hexDigitChar (b % 16)]

/-- `hashlib.md5(bytes).hexdigest()`. -/
def md5Hex (msg : List Nat) : String :=
  String.join ((md5Bytes msg).map byteHex)

/-- `DataManager._compute_hash` (src/app.py:94-96):
`hashlib.md5(json.dumps(data, sort_keys=True).encode()).hexdigest()`. -/
def computeHash (data : List Record) : String :=
  md5Hex (strBytes (canonicalJson data))

/-! ### The coordinator state and its operations (`class DataManager`) -/

/-- Outcome oracle for one persistence attempt: the write of the temporary
file, or the atomic rename, can be made to fail deterministically. -/
inductive FlushFault where
  | ok
  | writeFail
  | renameFail
deriving Repr, DecidableEq

/-- The durable filesystem as the engine observes it: the canonical data file,
the (at most one) live temporary file, and a ghost counter of Persistence
Engine invocations used only in specifications. -/
structure Disk where
  file : Option (List Record)
  temp : Option (List Record)
  attempts : Nat
deriving Repr, DecidableEq

/-- The fields of `DataManager.__init__` (src/app.py:65-74); `datetime` values
are the injected clock's `Nat` timestamps. -/
structure DataManager where
  in_memory_data : List Record
  modification_count : Nat
  last_save_time : Option Nat
  last_save_error : Option String
  data_version : String
  user_activity : List (String × Nat)
  user_current_record : List (String × Nat)
  upload_timestamp : Option Nat
deriving Repr, DecidableEq

/-- The coordinator's initial load (src/app.py:76-92): load the canonical file (an
absent file loads as `[]`), publish its hash, zero the counters.  The
last-save time is the file's mtime when present, else `now`; both are
abstracted by the injected clock value. -/
def DataManager.initializeData (disk : Disk) (now : Nat) : DataManager :=
  let data := disk.file.getD []
  { in_memory_data := data
    modification_count := 0
    last_save_time := some now
    last_save_error := none
    data_version := computeHash data
    user_activity := []
    user_current_record := []
    upload_timestamp := none }

/-- `datetime.now().isoformat()` rendered from the injected clock. -/
def isoformat (t : Nat) : String := toString t

/-- `DataManager._save_to_disk` (src/app.py:108-184).  Success path: write the
snapshot to a fresh temporary file, fsync, atomically rename it over the
canonical file, and only then reset `modification_count` to 0, clear
`last_save_error` and set `last_save_time`.  Any failure (modelled at the
write or the rename step) leaves the counters and the in-memory data alone,
records a non-empty `last_save_error`, and the `except` handler unlinks the
orphaned temporary file.  The ghost `attempts` counter records that the
engine was invoked. -/
def save_to_disk (st : DataManager) (disk : Disk) (now : Nat) (fault : FlushFault) :
    DataManager × Disk × Bool :=
  let disk1 : Disk := { disk with attempts := disk.attempts + 1 }
  match fault with
  | .writeFail =>
      ({ st with last_save_error := some "Save failed: write error" },
       { disk1 with temp := none }, false)
  | .renameFail =>
      ({ st with last_save_error := some "Save failed: rename error" },
       { disk1 with temp := none }, false)
  | .ok =>
      ({ st with last_save_time := some now, modification_count := 0,
                 last_save_error := none },
       { disk1 with file := some st.in_memory_data, temp := none }, true)

/-- The success payload of `DataManager.update_record` (src/app.py:241-246). -/
structure UpdateResult where
  status : String
  modification_count : Nat
  version : String
  auto_saved : Bool
deriving Repr, DecidableEq

/-- `DataManager.update_record` (src/app.py:210-246).  Out-of-range index
raises `ValueError` before any mutation.  Otherwise: apply the updates dict
to the record in order; if the `Status` value changed and a truthy username
was given, stamp `fixed_by`/`fixed_at`; bump `modification_count`; republish
the hash; refresh the caller's activity; and if the count reached the
threshold (`SAVE_THRESHOLD_MODIFICATIONS`), synchronously flush. -/
def update_record (threshold : Nat) (st : DataManager) (disk : Disk) (index : Int)
    (updates : List (String × JValue)) (username : Option String) (now : Nat)
    (fault : FlushFault) : DataManager × Disk × Except String UpdateResult :=
  if index < 0 ∨ (st.in_memory_data.length : Int) ≤ index then
    (st, disk, .error ("Invalid index: " ++ toString index))
  else
    let i := index.toNat
    let rec0 := st.in_memory_data.getD i []
    let old_status := dictGet rec0 "Status"
    let rec1 := updates.foldl (fun r p => dictSet r p.1 p.2) rec0
    let new_status := dictGet rec1 "Status"
    let rec2 :=
      if truthyStr username = true ∧ old_status ≠ new_status then
        dictSet (dictSet rec1 "fixed_by" (.str (username.getD "")))
          "fixed_at" (.str (isoformat now))
      else rec1
    let data1 := st.in_memory_data.set i rec2
    let st1 : DataManager := { st with
      in_memory_data := data1
      modification_count := st.modification_count + 1
      data_version := computeHash data1
      user_activity :=
        if truthyStr username then dictSet st.user_activity (username.getD "") now
        else st.user_activity }
    if st1.modification_count ≥ threshold then
      let r := save_to_disk st1 disk now fault
      (r.1, r.2.1, .ok { status := "success",
                         modification_count := r.1.modification_count,
                         version := r.1.data_version, auto_saved := r.2.2 })
    else
      (st1, disk, .ok { status := "success",
                        modification_count := st1.modification_count,
                        version := st1.data_version, auto_saved := false })

/-- Result of `DataManager.replace_all_data` (src/app.py:262-285). -/
inductive ReplaceResult where
  | conflict (message current_version expected_version : String)
  | done (status message : String) (items : Nat) (version : String)
      (save_error : Option String)
deriving Repr, DecidableEq

/-- `DataManager.replace_all_data` (src/app.py:248-285).  If a truthy
`expected_version` differs from the published hash, return the conflict
result untouched (the check happens before any mutation, under the same
lock).  Otherwise install the new collection, republish its hash, mark the
upload timestamp and flush immediately; on flush failure the in-memory
replacement stands and `modification_count` is kept for a later retry. -/
def replace_all_data (st : DataManager) (disk : Disk) (new_data : List Record)
    (_username expected_version : Option String) (now : Nat) (fault : FlushFault) :
    DataManager × Disk × ReplaceResult :=
  if truthyStr expected_version = true ∧ expected_version.getD "" ≠ st.data_version then
    (st, disk,
     .conflict "Data has been modified by another user. Please reload."
       st.data_version (expected_version.getD ""))
  else
    let st1 : DataManager := { st with
      in_memory_data := new_data
      data_version := computeHash new_data
      upload_timestamp := some now }
    let r := save_to_disk st1 disk now fault
    (r.1, r.2.1,
     .done (if r.2.2 then "success" else "error")
       (if r.2.2 then "Data replaced and saved" else "Data replaced but save failed")
       r.1.in_memory_data.length r.1.data_version r.1.last_save_error)

/-- `DataManager.get_data` (src/app.py:186-208), reduced to its state effect
and the `reload_required` flag: refresh the caller's activity when a truthy
username is given; signal reload within 5 seconds of an upload. -/
def get_data (st : DataManager) (username : Option String) (now : Nat) :
    DataManager × Bool :=
  let st1 :=
    if truthyStr username then
      { st with user_activity := dictSet st.user_activity (username.getD "") now }
    else st
  let reload :=
    match st1.upload_timestamp with
    | some t => decide (now - t < 5)
    | none => false
  (st1, reload)

/-- `DataManager.check_and_save` (src/app.py:287-295). -/
def check_and_save (threshold : Nat) (st : DataManager) (disk : Disk) (now : Nat)
    (fault : FlushFault) : DataManager × Disk × Bool :=
  if st.modification_count ≥ threshold then save_to_disk st disk now fault
  else (st, disk, false)

/-- `DataManager.force_save` (src/app.py:297-311), reduced to its state effect
and success flag. -/
def force_save (st : DataManager) (disk : Disk) (now : Nat) (fault : FlushFault) :
    DataManager × Disk × Bool :=
  save_to_disk st disk now fault

/-- `DataManager._cleanup_stale_sessions` (src/app.py:313-324): collect the
users inactive for more than 10 minutes (600 s), then delete each from the
activity dict and, when present, from the checkout dict. -/
def cleanup_stale_sessions (now : Nat) (st : DataManager) : DataManager :=
  let stale := (st.user_activity.filter (fun p => decide (now - p.2 > 600))).map Prod.fst
  { st with
    user_activity := stale.foldl (fun m u => dictDel m u) st.user_activity
    user_current_record := stale.foldl (fun m u => dictDel m u) st.user_current_record }

/-- Indices checked out by users other than the caller
(src/app.py:342-345); membership matches the Python set. -/
def occupiedIndices (ucr : List (String × Nat)) (username : String) : List Nat :=
  (ucr.filter (fun p => p.1 != username)).map Prod.snd

/-- `start_index` of the scan (src/app.py:348). -/
def startIndex : Option Int → Int
  | some i => i + 1
  | none => 0

/-- The body of the scan loop's acceptance test (src/app.py:354-365): the
index is not occupied by another user, and the record passes each truthy
filter (Python compares the possibly-missing field value to the filter
string, so acceptance demands equality with that string value). -/
def acceptIdx (data : List Record) (occupied : List Nat)
    (fs fls : Option String) (idx : Nat) : Bool :=
  if idx ∈ occupied then false
  else
    let record := data.getD idx []
    if truthyStr fs && decide (dictGet record "Status" ≠ some (JValue.str (fs.getD ""))) then
      false
    else if truthyStr fls &&
        decide (dictGet record "LLMStatus" ≠ some (JValue.str (fls.getD ""))) then
      false
    else true

/-- Result dict of `DataManager.get_next_record` (src/app.py:372-386). -/
structure NextResult where
  index : Option Nat
  record : Option Record
  occupied_count : Nat
  active_users : List String
  message : Option String
deriving Repr, DecidableEq

/-- `DataManager.get_next_record` (src/app.py:326-386): refresh the caller's
activity, expire stale sessions, compute the other users' occupied set, then
scan `offset = 0 .. n-1` over `idx = (start + offset) % n`, returning the
first acceptable index after checking it out for the caller, or the no-match
sentinel after a full wrap.  `occupied_count` is the size of the Python set,
i.e. the number of distinct occupied indices. -/
def get_next_record (st : DataManager) (username : String) (current_index : Option Int)
    (filter_status filter_llm_status : Option String) (now : Nat) :
    DataManager × NextResult :=
  let stA := { st with user_activity := dictSet st.user_activity username now }
  let st2 := cleanup_stale_sessions now stA
  let occupied := occupiedIndices st2.user_current_record username
  let start := startIndex current_index
  let n := st2.in_memory_data.length
  match (List.range n).find?
      (fun (off : Nat) => acceptIdx st2.in_memory_data occupied filter_status
        filter_llm_status ((start + (off : Int)) % (n : Int)).toNat) with
  | some off =>
      let idx := ((start + (off : Int)) % (n : Int)).toNat
      ({ st2 with user_current_record := dictSet st2.user_current_record username idx },
       { index := some idx
         record := st2.in_memory_data[idx]?
         occupied_count := occupied.dedup.length
         active_users := st2.user_activity.map Prod.fst
         message := none })
  | none =>
      (st2,
       { index := none
         record := none
         occupied_count := occupied.dedup.length
         active_users := st2.user_activity.map Prod.fst
         message := some "No available records matching filters" })

/-! ### Operation alphabet and reachable states -/

/-- One externally invokable coordinator operation, with its injected clock
value and, for the flushing operations, the persistence outcome oracle. -/
inductive Op where
  | update (index : Int) (updates : List (String × JValue)) (username : Option String)
      (now : Nat) (fault : FlushFault)
  | replaceAll (newData : List Record) (username expected : Option String)
      (now : Nat) (fault : FlushFault)
  | getNext (username : String) (currentIndex : Option Int)
      (filterStatus filterLlm : Option String) (now : Nat)
  | getSnapshot (username : Option String) (now : Nat)
  | forceFlush (now : Nat) (fault : FlushFault)
  | checkFlush (now : Nat) (fault : FlushFault)

/-- State transition of one operation (results projected away). -/
def step (threshold : Nat) (s : DataManager × Disk) (op : Op) : DataManager × Disk :=
  match op with
  | .update index updates username now fault =>
      let r := update_record threshold s.1 s.2 index updates username now fault
      (r.1, r.2.1)
  | .replaceAll newData username expected now fault =>
      let r := replace_all_data s.1 s.2 newData username expected now fault
      (r.1, r.2.1)
  | .getNext username ci fs fls now =>
      ((get_next_record s.1 username ci fs fls now).1, s.2)
  | .getSnapshot username now => ((get_data s.1 username now).1, s.2)
  | .forceFlush now fault =>
      let r := force_save s.1 s.2 now fault
      (r.1, r.2.1)
  | .checkFlush now fault =>
      let r := check_and_save threshold s.1 s.2 now fault
      (r.1, r.2.1)

/-- Execution of a call sequence from a starting state. -/
def run (threshold : Nat) (s : DataManager × Disk) (ops : List Op) : DataManager × Disk :=
  ops.foldl (step threshold) s

/-! ### Basic lemmas about the dict operations -/

theorem dictGet_dictSet {α : Type} (m : List (String × α)) (k u : String) (v : α) :
    dictGet (dictSet m k v) u = if u = k then some v else dictGet m u := by
  induction m with
  | nil =>
    by_cases h : u = k <;> simp [dictSet, dictGet, h]
    intro h'
    exact absurd h'.symm h
  | cons p t ih =>
    by_cases h1 : p.1 = k
    · by_cases h2 : u = k
      · simp [dictSet, dictGet, h1, h2]
      · have hku : ¬k = u := fun h => h2 h.symm
        have hpu : ¬p.1 = u := fun h => hku (h1.symm.trans h)
        simp [dictSet, dictGet, h1, h2, hku, hpu]
    · by_cases h2 : p.1 = u
      · have huk : ¬u = k := fun h => h1 (h2.trans h)
        simp [dictSet, dictGet, h1, h2, huk]
      · simp [dictSet, dictGet, h1, h2, ih]

theorem mem_dictKeys_dictSet {α : Type} (m : List (String × α)) (k u : String) (v : α) :
    u ∈ dictKeys (dictSet m k v) ↔ u = k ∨ u ∈ dictKeys m := by
  induction m with
  | nil => simp [dictSet, dictKeys]
  | cons p t ih =>
    by_cases h1 : p.1 = k
    · simp only [dictSet, if_pos h1, dictKeys, List.map_cons, List.mem_cons]
      constructor
      · rintro (h | h)
        · exact Or.inl h
        · exact Or.inr (Or.inr h)
      · rintro (h | h | h)
        · exact Or.inl h
        · exact Or.inl (h.trans h1)
        · exact Or.inr h
    · simp only [dictSet, if_neg h1, dictKeys, List.map_cons, List.mem_cons]
      have := ih
      simp only [dictKeys] at this
      rw [this]
      tauto

theorem nodup_dictKeys_dictSet {α : Type} (m : List (String × α)) (k : String) (v : α)
    (h : (dictKeys m).Nodup) : (dictKeys (dictSet m k v)).Nodup := by
  induction m with
  | nil => simp [dictSet, dictKeys]
  | cons p t ih =>
    simp only [dictKeys, List.map_cons, List.nodup_cons] at h
    by_cases h1 : p.1 = k
    · have e : dictSet (p :: t) k v = (k, v) :: t := by simp [dictSet, h1]
      rw [e]
      simp only [dictKeys, List.map_cons, List.nodup_cons]
      exact ⟨fun hm => h.1 (by rw [h1]; exact hm), h.2⟩
    · have e : dictSet (p :: t) k v = p :: dictSet t k v := by simp [dictSet, h1]
      rw [e]
      simp only [dictKeys, List.map_cons, List.nodup_cons]
      refine ⟨fun hm => ?_, ih h.2⟩
      rcases (mem_dictKeys_dictSet t k p.1 v).mp hm with h' | h'
      · exact h1 h'
      · exact h.1 h'

theorem dictDel_sublist {α : Type} (m : List (String × α)) (k : String) :
    (dictDel m k).Sublist m := by
  induction m with
  | nil => simp [dictDel]
  | cons p t ih =>
    by_cases h1 : p.1 = k
    · simp only [dictDel, if_pos h1]
      exact (List.sublist_cons_self p t)
    · simp only [dictDel, if_neg h1]
      exact ih.cons₂ p

theorem dictGet_dictDel_ne {α : Type} (m : List (String × α)) (k u : String)
    (h : u ≠ k) : dictGet (dictDel m k) u = dictGet m u := by
  induction m with
  | nil => simp [dictDel]
  | cons p t ih =>
    by_cases h1 : p.1 = k
    · have hpu : ¬p.1 = u := fun h' => h (h'.symm.trans h1)
      have e : dictDel (p :: t) k = t := by simp [dictDel, h1]
      rw [e]
      simp [dictGet, hpu]
    · have e : dictDel (p :: t) k = p :: dictDel t k := by simp [dictDel, h1]
      rw [e]
      by_cases h2 : p.1 = u <;> simp [dictGet, h2, ih]

theorem dictGet_eq_none_of_not_mem {α : Type} {m : List (String × α)} {k : String}
    (h : k ∉ dictKeys m) : dictGet m k = none := by
  induction m with
  | nil => simp [dictGet]
  | cons p t ih =>
    simp only [dictKeys, List.map_cons, List.mem_cons, not_or] at h
    have h1 : ¬p.1 = k := fun h' => h.1 h'.symm
    simp only [dictGet, if_neg h1]
    exact ih h.2

theorem dictGet_dictDel_self {α : Type} (m : List (String × α)) (k : String)
    (h : (dictKeys m).Nodup) : dictGet (dictDel m k) k = none := by
  induction m with
  | nil => simp [dictDel, dictGet]
  | cons p t ih =>
    simp only [dictKeys, List.map_cons, List.nodup_cons] at h
    by_cases h1 : p.1 = k
    · have e : dictDel (p :: t) k = t := by simp [dictDel, h1]
      rw [e]
      exact dictGet_eq_none_of_not_mem (fun hm => h.1 (by rw [h1]; exact hm))
    · have e : dictDel (p :: t) k = p :: dictDel t k := by simp [dictDel, h1]
      rw [e]
      simp only [dictGet, if_neg h1]
      exact ih h.2

theorem dictGet_mem {α : Type} {m : List (String × α)} {k : String} {v : α}
    (h : dictGet m k = some v) : (k, v) ∈ m := by
  induction m with
  | nil => simp [dictGet] at h
  | cons p t ih =>
    by_cases h1 : p.1 = k
    · simp only [dictGet, if_pos h1] at h
      cases h
      rw [← h1]
      exact List.mem_cons_self _ _
    · simp only [dictGet, if_neg h1] at h
      exact List.mem_cons_of_mem p (ih h)

theorem dictGet_eq_some_of_mem {α : Type} {m : List (String × α)} {k : String} {v : α}
    (hnd : (dictKeys m).Nodup) (h : (k, v) ∈ m) : dictGet m k = some v := by
  induction m with
  | nil => simp at h
  | cons p t ih =>
    simp only [dictKeys, List.map_cons, List.nodup_cons] at hnd
    rcases List.mem_cons.mp h with h' | h'
    · simp [dictGet, ← h']
    · have h1 : ¬p.1 = k := by
        intro he
        exact hnd.1 (he ▸ (List.mem_map_of_mem Prod.fst h'))
      simp only [dictGet, if_neg h1]
      exact ih hnd.2 h'

theorem foldl_dictDel_sublist {α : Type} (ks : List String) (m : List (String × α)) :
    (ks.foldl (fun m u => dictDel m u) m).Sublist m := by
  induction ks generalizing m with
  | nil => simp
  | cons k ks ih =>
    simp only [List.foldl_cons]
    exact (ih (dictDel m k)).trans (dictDel_sublist m k)

theorem nodup_dictKeys_of_sublist {α : Type} {m m' : List (String × α)}
    (hs : m'.Sublist m) (h : (dictKeys m).Nodup) : (dictKeys m').Nodup :=
  (hs.map Prod.fst).nodup h

theorem dictGet_foldl_dictDel {α : Type} (ks : List String) (m : List (String × α))
    (hnd : (dictKeys m).Nodup) (u : String) :
    dictGet (ks.foldl (fun m u => dictDel m u) m) u =
      if u ∈ ks then none else dictGet m u := by
  induction ks generalizing m with
  | nil => simp
  | cons k ks ih =>
    have hnd' : (dictKeys (dictDel m k)).Nodup :=
      nodup_dictKeys_of_sublist (dictDel_sublist m k) hnd
    simp only [List.foldl_cons, ih (dictDel m k) hnd', List.mem_cons]
    by_cases h1 : u ∈ ks
    · simp [h1]
    · by_cases h2 : u = k
      · simp [h1, h2, dictGet_dictDel_self m k hnd]
      · simp [h1, h2, dictGet_dictDel_ne m k u h2]

/-! ### Frame lemmas for the persistence path -/

theorem save_to_disk_frame (st : DataManager) (disk : Disk) (now : Nat) (fault : FlushFault) :
    (save_to_disk st disk now fault).1.in_memory_data = st.in_memory_data ∧
    (save_to_disk st disk now fault).1.data_version = st.data_version ∧
    (save_to_disk st disk now fault).1.user_activity = st.user_activity ∧
    (save_to_disk st disk now fault).1.user_current_record = st.user_current_record ∧
    (save_to_disk st disk now fault).1.upload_timestamp = st.upload_timestamp := by
  cases fault <;> exact ⟨rfl, rfl, rfl, rfl, rfl⟩

theorem truthyStr_some {u : String} (h : u ≠ "") : truthyStr (some u) = true := by
  simp [truthyStr, h]

/-- Collection content written by a valid `update_record` call: the updated
record, stamped when a truthy username saw the `Status` value change. -/
theorem update_record_inm (threshold : Nat) (st : DataManager) (disk : Disk)
    (index : Int) (updates : List (String × JValue)) (username : Option String)
    (now : Nat) (fault : FlushFault)
    (h : ¬(index < 0 ∨ (st.in_memory_data.length : Int) ≤ index)) :
    (update_record threshold st disk index updates username now fault).1.in_memory_data =
      st.in_memory_data.set index.toNat
        (if truthyStr username = true ∧
            dictGet (st.in_memory_data.getD index.toNat []) "Status" ≠
              dictGet (updates.foldl (fun r p => dictSet r p.1 p.2)
                (st.in_memory_data.getD index.toNat [])) "Status" then
          dictSet (dictSet (updates.foldl (fun r p => dictSet r p.1 p.2)
              (st.in_memory_data.getD index.toNat []))
            "fixed_by" (.str (username.getD ""))) "fixed_at" (.str (isoformat now))
        else updates.foldl (fun r p => dictSet r p.1 p.2)
          (st.in_memory_data.getD index.toNat [])) := by
  simp only [update_record, if_neg h]
  split
  · exact (save_to_disk_frame _ _ _ _).1
  · rfl

/-- C3: every failing flush attempt leaves `modification_count` and the
in-memory collection untouched, records a non-empty `last_save_error`, leaves
no orphaned temporary file, and does not replace the canonical file; a
successful flush resets the counter to 0, clears the error, sets the flush
timestamp and installs the snapshot as the canonical file — and those resets
happen exactly when the atomic rename completed (success ↔ rename done). -/
theorem C3_flush_failure_success_semantics :
    ∀ (st : DataManager) (disk : Disk) (now : Nat) (fault : FlushFault),
      (save_to_disk st disk now fault).1.in_memory_data = st.in_memory_data ∧
      (save_to_disk st disk now fault).2.1.temp = none ∧
      (fault ≠ .ok →
        (save_to_disk st disk now fault).2.2 = false ∧
        (save_to_disk st disk now fault).1.modification_count = st.modification_count ∧
        (∃ e, (save_to_disk st disk now fault).1.last_save_error = some e ∧ e ≠ "") ∧
        (save_to_disk st disk now fault).2.1.file = disk.file) ∧
      (fault = .ok →
        (save_to_disk st disk now fault).2.2 = true ∧
        (save_to_disk st disk now fault).1.modification_count = 0 ∧
        (save_to_disk st disk now fault).1.last_save_error = none ∧
        (save_to_disk st disk now fault).1.last_save_time = some now ∧
        (save_to_disk st disk now fault).2.1.file = some st.in_memory_data) ∧
      ((save_to_disk st disk now fault).2.2 = true ↔ fault = .ok) := by
  intro st disk now fault
  cases fault with
  | ok =>
    refine ⟨rfl, rfl, fun hne => absurd rfl hne, fun _ => ⟨rfl, rfl, rfl, rfl, rfl⟩, ?_⟩
    simp [save_to_disk]
  | writeFail =>
    refine ⟨rfl, rfl, fun _ => ⟨rfl, rfl, ⟨"Save failed: write error", rfl, by decide⟩, rfl⟩,
      fun he => absurd he (by decide), ?_⟩
    simp [save_to_disk]
  | renameFail =>
    refine ⟨rfl, rfl, fun _ => ⟨rfl, rfl, ⟨"Save failed: rename error", rfl, by decide⟩, rfl⟩,
      fun he => absurd he (by decide), ?_⟩
    simp [save_to_disk]

/-- Concrete coordinator state for the C3 witness. -/
def c3St : DataManager := ⟨[[("Status", JValue.str "Pending")]], 5, none, none, "v", [], [], none⟩

/-- Witness for C3 at a concrete state: a rename failure leaves the pending
count at 5 with an error set, a success resets it to 0. -/
theorem C3_flush_failure_success_semantics_witness :
    (save_to_disk c3St ⟨none, none, 0⟩ 7 .renameFail).1.modification_count = 5 ∧
    (save_to_disk c3St ⟨none, none, 0⟩ 7 .renameFail).2.2 = false ∧
    (save_to_disk c3St ⟨none, none, 0⟩ 7 .ok).1.modification_count = 0 := by
  have hf := C3_flush_failure_success_semantics c3St ⟨none, none, 0⟩ 7 .renameFail
  have hs := C3_flush_failure_success_semantics c3St ⟨none, none, 0⟩ 7 .ok
  exact ⟨(hf.2.2.1 (by decide)).2.1, (hf.2.2.1 (by decide)).1, (hs.2.2.2.1 rfl).2.1⟩

/-- C6: an out-of-range index makes `update_record` fail with the invalid
index error before any mutation: the returned coordinator state and disk are
exactly the ones passed in (collection, pending count, fingerprint, sessions
all untouched, no flush attempted). -/
theorem C6_invalid_index_rejection :
    ∀ (threshold : Nat) (st : DataManager) (disk : Disk) (index : Int)
      (updates : List (String × JValue)) (username : Option String) (now : Nat)
      (fault : FlushFault),
      index < 0 ∨ (st.in_memory_data.length : Int) ≤ index →
      update_record threshold st disk index updates username now fault =
        (st, disk, .error ("Invalid index: " ++ toString index)) := by
  intro threshold st disk index updates username now fault h
  simp only [update_record, if_pos h]

/-- Witness for C6 at a concrete out-of-range call. -/
theorem C6_invalid_index_rejection_witness :
    update_record 3 c3St ⟨none, none, 0⟩ 5 [] none 0 .ok =
      (c3St, ⟨none, none, 0⟩, .error ("Invalid index: " ++ toString (5 : Int))) :=
  C6_invalid_index_rejection 3 c3St ⟨none, none, 0⟩ 5 [] none 0 .ok (by decide)

/-- C2 (amended): a supplied NON-EMPTY `expected_version` differing from the
current fingerprint makes `replace_all_data` return the conflict result
carrying the current fingerprint, with the whole state (collection,
fingerprint, pending count, upload timestamp) and the disk — including the
ghost persistence-attempt counter — exactly as passed in. -/
theorem C2_replace_all_conflict_atomicity :
    ∀ (st : DataManager) (disk : Disk) (new_data : List Record)
      (username : Option String) (expected : String) (now : Nat) (fault : FlushFault),
      expected ≠ "" → expected ≠ st.data_version →
      replace_all_data st disk new_data username (some expected) now fault =
        (st, disk,
         .conflict "Data has been modified by another user. Please reload."
           st.data_version expected) := by
  intro st disk new_data username expected now fault he hne
  simp only [replace_all_data]
  rw [if_pos ⟨truthyStr_some he, by simpa using hne⟩]
  rfl

/-- Witness for C2 at a concrete state with a wrong non-empty fingerprint. -/
theorem C2_replace_all_conflict_atomicity_witness :
    replace_all_data c3St ⟨none, none, 0⟩ [] (some "u") (some "zzz") 9 .ok =
      (c3St, ⟨none, none, 0⟩,
       .conflict "Data has been modified by another user. Please reload." "v" "zzz") :=
  C2_replace_all_conflict_atomicity c3St ⟨none, none, 0⟩ [] (some "u") "zzz" 9 .ok
    (by decide) (by decide)

/-- Coordinator state reached by an initial load of an empty canonical file,
used for the C2 counterexample. -/
def c2St : DataManager := DataManager.initializeData ⟨some [], none, 0⟩ 0

/-- The `replace_all_data` call of the C2 counterexample: the supplied
expected fingerprint is the empty string, which never equals the published
MD5 fingerprint, yet the call replaces the collection. -/
def c2Run : DataManager × Disk × ReplaceResult :=
  replace_all_data c2St ⟨some [], none, 0⟩ [[("A", JValue.str "1")]]
    (some "u") (some "") 5 .ok

/-- Discriminator for the conflict constructor of `ReplaceResult`. -/
def replaceIsConflict : ReplaceResult → Bool
  | .conflict _ _ _ => true
  | .done _ _ _ _ _ => false

/-- C2 counterexample: the expected fingerprint `""` is supplied and differs
from the current fingerprint, yet the call is NOT rejected as a conflict and
the collection changes — Python's truthiness test (src/app.py:261) treats an
empty string like an absent fingerprint. -/
theorem C2_counterexample :
    ("" : String) ≠ c2St.data_version ∧
    replaceIsConflict c2Run.2.2 = false ∧
    c2Run.1.in_memory_data ≠ c2St.in_memory_data := by
  refine ⟨by decide, by decide, by decide⟩

/-- C5 (amended): on a valid index with a NON-EMPTY username, if applying the
field updates changes the value of `Status`, the coordinator overwrites the
record with `fixed_by = username` and `fixed_at = now` after the caller's
updates (so the coordinator's values win even when the caller supplied those
fields); if `Status` is unchanged, the stored record is exactly the record
with the caller's updates applied and nothing else. -/
theorem C5_attribution_stamping :
    ∀ (threshold : Nat) (st : DataManager) (disk : Disk) (index : Int)
      (updates : List (String × JValue)) (u : String) (now : Nat) (fault : FlushFault),
      ¬(index < 0 ∨ (st.in_memory_data.length : Int) ≤ index) →
      u ≠ "" →
      (dictGet (st.in_memory_data.getD index.toNat []) "Status" ≠
          dictGet (updates.foldl (fun r p => dictSet r p.1 p.2)
            (st.in_memory_data.getD index.toNat [])) "Status" →
        (update_record threshold st disk index updates (some u) now fault).1.in_memory_data =
          st.in_memory_data.set index.toNat
            (dictSet (dictSet (updates.foldl (fun r p => dictSet r p.1 p.2)
                (st.in_memory_data.getD index.toNat []))
              "fixed_by" (.str u)) "fixed_at" (.str (isoformat now))) ∧
        dictGet (dictSet (dictSet (updates.foldl (fun r p => dictSet r p.1 p.2)
            (st.in_memory_data.getD index.toNat []))
          "fixed_by" (.str u)) "fixed_at" (.str (isoformat now))) "fixed_by" =
            some (.str u) ∧
        dictGet (dictSet (dictSet (updates.foldl (fun r p => dictSet r p.1 p.2)
            (st.in_memory_data.getD index.toNat []))
          "fixed_by" (.str u)) "fixed_at" (.str (isoformat now))) "fixed_at" =
            some (.str (isoformat now))) ∧
      (dictGet (st.in_memory_data.getD index.toNat []) "Status" =
          dictGet (updates.foldl (fun r p => dictSet r p.1 p.2)
            (st.in_memory_data.getD index.toNat [])) "Status" →
        (update_record threshold st disk index updates (some u) now fault).1.in_memory_data =
          st.in_memory_data.set index.toNat
            (updates.foldl (fun r p => dictSet r p.1 p.2)
              (st.in_memory_data.getD index.toNat []))) := by
  intro threshold st disk index updates u now fault hidx hu
  have hmain := update_record_inm threshold st disk index updates (some u) now fault hidx
  constructor
  · intro hch
    refine ⟨?_, ?_, ?_⟩
    · rw [hmain, if_pos ⟨truthyStr_some hu, hch⟩]
      rfl
    · rw [dictGet_dictSet, if_neg (by decide), dictGet_dictSet, if_pos rfl]
    · rw [dictGet_dictSet, if_pos rfl]
  · intro heq
    rw [hmain, if_neg]
    intro hc
    exact hc.2 heq

/-- Concrete state for the C5 witness and counterexample: one record whose
`Status` is `"Pending"`, reached by an initial load. -/
def c5St : DataManager :=
  DataManager.initializeData ⟨some [[("Status", JValue.str "Pending")]], none, 0⟩ 0

/-- Witness for C5: a status-changing update by user `"danny"`, with the
caller even trying to smuggle its own `fixed_by`, ends with the
coordinator's stamp. -/
theorem C5_attribution_stamping_witness :
    (update_record 3 c5St ⟨none, none, 0⟩ 0
        [("Status", JValue.str "done"), ("fixed_by", JValue.str "mallory")]
        (some "danny") 4 .ok).1.in_memory_data =
      c5St.in_memory_data.set 0
        (dictSet (dictSet ([("Status", JValue.str "done"),
            ("fixed_by", JValue.str "mallory")].foldl (fun r p => dictSet r p.1 p.2)
            (c5St.in_memory_data.getD (0 : Int).toNat []))
          "fixed_by" (.str "danny")) "fixed_at" (.str (isoformat 4))) ∧
    dictGet (dictSet (dictSet ([("Status", JValue.str "done"),
        ("fixed_by", JValue.str "mallory")].foldl (fun r p => dictSet r p.1 p.2)
        (c5St.in_memory_data.getD (0 : Int).toNat []))
      "fixed_by" (.str "danny")) "fixed_at" (.str (isoformat 4))) "fixed_by" =
        some (.str "danny") := by
  have h := (C5_attribution_stamping 3 c5St ⟨none, none, 0⟩ 0
    [("Status", JValue.str "done"), ("fixed_by", JValue.str "mallory")]
    "danny" 4 .ok (by decide) (by decide)).1 (by decide)
  exact ⟨h.1, h.2.1⟩

/-- The `update_record` call of the C5 counterexample: the username is the
empty string. -/
def c5Run : DataManager × Disk × Except String UpdateResult :=
  update_record 3 c5St ⟨none, none, 0⟩ 0 [("Status", JValue.str "done")] (some "") 1 .ok

/-- C5 counterexample: a supplied (empty-string) username together with a
`Status` change does NOT get stamped — `fixed_by`/`fixed_at` are absent from
the stored record, because Python's truthiness test (src/app.py:223) skips
stamping for a falsy username. -/
theorem C5_counterexample :
    dictGet (c5St.in_memory_data.getD 0 []) "Status" ≠
      dictGet (c5Run.1.in_memory_data.getD 0 []) "Status" ∧
    dictGet (c5Run.1.in_memory_data.getD 0 []) "fixed_by" = none ∧
    dictGet (c5Run.1.in_memory_data.getD 0 []) "fixed_at" = none := by
  refine ⟨by decide, by decide, by decide⟩

/-! ### The no-drift fingerprint invariant -/

/-- The published fingerprint is exactly the digest of the current in-memory
collection. -/
def FingerprintInv (st : DataManager) : Prop :=
  st.data_version = computeHash st.in_memory_data

theorem fingerprintInv_update (threshold : Nat) (st : DataManager) (disk : Disk)
    (index : Int) (updates : List (String × JValue)) (username : Option String)
    (now : Nat) (fault : FlushFault) (h : FingerprintInv st) :
    FingerprintInv (update_record threshold st disk index updates username now fault).1 := by
  by_cases hidx : index < 0 ∨ (st.in_memory_data.length : Int) ≤ index
  · simp only [update_record, if_pos hidx]
    exact h
  · simp only [update_record, if_neg hidx]
    split
    · show FingerprintInv (save_to_disk _ _ _ _).1
      unfold FingerprintInv
      rw [(save_to_disk_frame _ _ _ _).1, (save_to_disk_frame _ _ _ _).2.1]
    · rfl

theorem fingerprintInv_replace (st : DataManager) (disk : Disk) (new_data : List Record)
    (username expected : Option String) (now : Nat) (fault : FlushFault)
    (h : FingerprintInv st) :
    FingerprintInv (replace_all_data st disk new_data username expected now fault).1 := by
  by_cases hc : truthyStr expected = true ∧ expected.getD "" ≠ st.data_version
  · simp only [replace_all_data, if_pos hc]
    exact h
  · simp only [replace_all_data, if_neg hc]
    show FingerprintInv (save_to_disk _ _ _ _).1
    unfold FingerprintInv
    rw [(save_to_disk_frame _ _ _ _).1, (save_to_disk_frame _ _ _ _).2.1]

theorem get_next_record_frame (st : DataManager) (username : String)
    (ci : Option Int) (fs fls : Option String) (now : Nat) :
    (get_next_record st username ci fs fls now).1.in_memory_data = st.in_memory_data ∧
    (get_next_record st username ci fs fls now).1.data_version = st.data_version ∧
    (get_next_record st username ci fs fls now).1.modification_count = st.modification_count ∧
    (get_next_record st username ci fs fls now).1.upload_timestamp = st.upload_timestamp ∧
    (get_next_record st username ci fs fls now).1.last_save_time = st.last_save_time ∧
    (get_next_record st username ci fs fls now).1.last_save_error = st.last_save_error := by
  unfold get_next_record cleanup_stale_sessions
  dsimp only
  split
  · exact ⟨rfl, rfl, rfl, rfl, rfl, rfl⟩
  · exact ⟨rfl, rfl, rfl, rfl, rfl, rfl⟩

theorem get_data_frame (st : DataManager) (username : Option String) (now : Nat) :
    (get_data st username now).1.in_memory_data = st.in_memory_data ∧
    (get_data st username now).1.data_version = st.data_version ∧
    (get_data st username now).1.user_current_record = st.user_current_record := by
  unfold get_data
  dsimp only
  split
  · exact ⟨rfl, rfl, rfl⟩
  · exact ⟨rfl, rfl, rfl⟩

theorem fingerprintInv_step (threshold : Nat) (s : DataManager × Disk) (op : Op)
    (h : FingerprintInv s.1) : FingerprintInv (step threshold s op).1 := by
  cases op with
  | update index updates username now fault =>
    exact fingerprintInv_update threshold s.1 s.2 index updates username now fault h
  | replaceAll newData username expected now fault =>
    exact fingerprintInv_replace s.1 s.2 newData username expected now fault h
  | getNext username ci fs fls now =>
    show FingerprintInv (get_next_record s.1 username ci fs fls now).1
    unfold FingerprintInv
    rw [(get_next_record_frame _ _ _ _ _ _).1, (get_next_record_frame _ _ _ _ _ _).2.1]
    exact h
  | getSnapshot username now =>
    show FingerprintInv (get_data s.1 username now).1
    unfold FingerprintInv
    rw [(get_data_frame _ _ _).1, (get_data_frame _ _ _).2.1]
    exact h
  | forceFlush now fault =>
    show FingerprintInv (save_to_disk s.1 s.2 now fault).1
    unfold FingerprintInv
    rw [(save_to_disk_frame _ _ _ _).1, (save_to_disk_frame _ _ _ _).2.1]
    exact h
  | checkFlush now fault =>
    show FingerprintInv (check_and_save threshold s.1 s.2 now fault).1
    unfold check_and_save
    split
    · show FingerprintInv (save_to_disk _ _ _ _).1
      unfold FingerprintInv
      rw [(save_to_disk_frame _ _ _ _).1, (save_to_disk_frame _ _ _ _).2.1]
      exact h
    · exact h

theorem fingerprintInv_run (threshold : Nat) (ops : List Op) :
    ∀ s : DataManager × Disk, FingerprintInv s.1 →
      FingerprintInv (run threshold s ops).1 := by
  induction ops with
  | nil => exact fun s h => h
  | cons op ops ih =>
    intro s h
    exact ih (step threshold s op) (fingerprintInv_step threshold s op h)

/-- C1: the no-drift invariant — the initial load publishes the digest of the
loaded collection; every coordinator operation (including every successful
`update_record` and `replace_all_data`) preserves the property that the
published fingerprint equals the digest of the current collection content
(the content with the attribution stamps of that very call); hence along
every operation sequence from an initial load — in particular every sequence
of `update_record` calls — the fingerprint after call N is the digest of the
collection after call N. -/
theorem C1_no_drift_fingerprint :
    (∀ disk now, FingerprintInv (DataManager.initializeData disk now)) ∧
    (∀ (threshold : Nat) (s : DataManager × Disk) (op : Op),
      FingerprintInv s.1 → FingerprintInv (step threshold s op).1) ∧
    (∀ (threshold : Nat) (disk0 : Disk) (now0 : Nat) (ops : List Op),
      FingerprintInv (run threshold (DataManager.initializeData disk0 now0, disk0) ops).1) :=
  ⟨fun _ _ => rfl, fingerprintInv_step,
   fun threshold disk0 now0 ops =>
     fingerprintInv_run threshold ops (DataManager.initializeData disk0 now0, disk0) rfl⟩

/-- Witness for C1 at a concrete state and operation, discharging the
invariant hypothesis of the preservation conjunct at an initial state. -/
theorem C1_no_drift_fingerprint_witness :
    FingerprintInv (step 3 (DataManager.initializeData ⟨none, none, 0⟩ 0, ⟨none, none, 0⟩)
      (Op.update 0 [] none 1 .ok)).1 :=
  C1_no_drift_fingerprint.2.1 3 (DataManager.initializeData ⟨none, none, 0⟩ 0, ⟨none, none, 0⟩)
    (Op.update 0 [] none 1 .ok) (C1_no_drift_fingerprint.1 ⟨none, none, 0⟩ 0)

theorem save_to_disk_attempts (st : DataManager) (disk : Disk) (now : Nat)
    (fault : FlushFault) :
    (save_to_disk st disk now fault).2.1.attempts = disk.attempts + 1 := by
  cases fault <;> rfl

/-- Disk holding the 3-record collection with `Status` values
`["Pending", "done", "Pending"]` of the C4 scenario. -/
def c4Disk : Disk :=
  ⟨some [[("Status", JValue.str "Pending")], [("Status", JValue.str "done")],
         [("Status", JValue.str "Pending")]], none, 0⟩

/-- Initial load of the C4 scenario. -/
def c4St0 : DataManager := DataManager.initializeData c4Disk 0

/-- First `update_record` call of the C4 scenario (changes `Status` of
record 0). -/
def c4Run1 : DataManager × Disk × Except String UpdateResult :=
  update_record 3 c4St0 c4Disk 0 [("Status", JValue.str "done")] (some "danny") 1 .ok

/-- Second call (changes `Status` of record 1). -/
def c4Run2 : DataManager × Disk × Except String UpdateResult :=
  update_record 3 c4Run1.1 c4Run1.2.1 1 [("Status", JValue.str "Pending")] (some "danny") 2 .ok

/-- Third call (changes `Status` of record 2), crossing the threshold. -/
def c4Run3 : DataManager × Disk × Except String UpdateResult :=
  update_record 3 c4Run2.1 c4Run2.2.1 2 [("Status", JValue.str "done")] (some "danny") 3 .ok

/-- C4: every valid `update_record` increments the pending-mutation counter,
and invokes the Persistence Engine synchronously before returning exactly
when the incremented counter reaches the threshold (with a successful
persistence resetting the counter to 0); and in the concrete
`saveThreshold = 3` scenario on the 3-record collection with `Status`
values `["Pending","done","Pending"]`, three status-changing calls leave
counts 1, 2, then 0, report `auto_saved` only on the third call, write the
snapshot to the canonical file in exactly one engine invocation, and stamp
`fixed_by`/`fixed_at` on all three records. -/
theorem C4_threshold_triggered_flush :
    (∀ (threshold : Nat) (st : DataManager) (disk : Disk) (index : Int)
        (updates : List (String × JValue)) (username : Option String) (now : Nat)
        (fault : FlushFault),
      ¬(index < 0 ∨ (st.in_memory_data.length : Int) ≤ index) →
      (st.modification_count + 1 < threshold →
        (update_record threshold st disk index updates username now fault).1.modification_count
            = st.modification_count + 1 ∧
        (update_record threshold st disk index updates username now fault).2.1 = disk) ∧
      (threshold ≤ st.modification_count + 1 →
        (update_record threshold st disk index updates username now fault).2.1.attempts
            = disk.attempts + 1 ∧
        (fault = .ok →
          (update_record threshold st disk index updates username now
            fault).1.modification_count = 0))) ∧
    (c4Run1.1.modification_count = 1 ∧ c4Run2.1.modification_count = 2 ∧
     c4Run3.1.modification_count = 0 ∧
     c4Run1.2.2.toOption.map UpdateResult.auto_saved = some false ∧
     c4Run2.2.2.toOption.map UpdateResult.auto_saved = some false ∧
     c4Run3.2.2.toOption.map UpdateResult.auto_saved = some true ∧
     c4Run3.2.1.attempts = 1 ∧
     c4Run3.2.1.file = some c4Run3.1.in_memory_data ∧
     c4Run3.1.in_memory_data.map (fun r => dictGet r "fixed_by") =
       [some (.str "danny"), some (.str "danny"), some (.str "danny")] ∧
     c4Run3.1.in_memory_data.map (fun r => dictGet r "fixed_at") =
       [some (.str (isoformat 1)), some (.str (isoformat 2)),
        some (.str (isoformat 3))]) := by
  constructor
  · intro threshold st disk index updates username now fault hidx
    constructor
    · intro hlt
      simp only [update_record, if_neg hidx]
      split
      · next hcond =>
        exfalso
        simp only [ge_iff_le] at hcond
        omega
      · exact ⟨rfl, rfl⟩
    · intro hge
      simp only [update_record, if_neg hidx]
      split
      · next hcond =>
        refine ⟨save_to_disk_attempts _ _ _ _, fun hok => ?_⟩
        subst hok
        rfl
      · next hcond =>
        exfalso
        simp only [ge_iff_le] at hcond
        omega
  · refine ⟨by decide, by decide, by decide, by decide, by decide, by decide,
      by decide, by decide, by decide, by decide⟩

/-- Witness for C4's general conjunct at concrete calls: a first mutation
under threshold 3 leaves count 1 and the disk untouched; under threshold 1
it invokes the engine and a successful flush resets the counter. -/
theorem C4_threshold_triggered_flush_witness :
    ((update_record 3 c5St ⟨none, none, 0⟩ 0 [] none 0 .ok).1.modification_count = 1 ∧
     (update_record 3 c5St ⟨none, none, 0⟩ 0 [] none 0 .ok).2.1 = ⟨none, none, 0⟩) ∧
    ((update_record 1 c5St ⟨none, none, 0⟩ 0 [] none 0 .ok).2.1.attempts = 1 ∧
     (update_record 1 c5St ⟨none, none, 0⟩ 0 [] none 0 .ok).1.modification_count = 0) := by
  have h3 := (C4_threshold_triggered_flush.1 3 c5St ⟨none, none, 0⟩ 0 [] none 0 .ok
    (by decide)).1 (by decide)
  have h1 := (C4_threshold_triggered_flush.1 1 c5St ⟨none, none, 0⟩ 0 [] none 0 .ok
    (by decide)).2 (by decide)
  exact ⟨h3, h1.1, h1.2 rfl⟩

/-- C10: on an empty collection the scan loop of `get_next_record` runs zero
iterations (the index-modulo-length expression is never formed), so the call
returns the no-match sentinel — not an error — and the resulting state is
exactly the activity-refreshed, stale-session-cleaned state: no checkout is
assigned to the caller. -/
theorem C10_empty_collection_get_next :
    ∀ (st : DataManager) (username : String) (ci : Option Int)
      (fs fls : Option String) (now : Nat),
      st.in_memory_data = [] →
      (get_next_record st username ci fs fls now).2.index = none ∧
      (get_next_record st username ci fs fls now).2.record = none ∧
      (get_next_record st username ci fs fls now).2.message =
        some "No available records matching filters" ∧
      (get_next_record st username ci fs fls now).1 =
        cleanup_stale_sessions now
          { st with user_activity := dictSet st.user_activity username now } := by
  intro st username ci fs fls now h
  unfold get_next_record
  have hn : (cleanup_stale_sessions now
      { st with user_activity := dictSet st.user_activity username now }).in_memory_data
        = [] := by
    unfold cleanup_stale_sessions
    exact h
  dsimp only
  rw [hn]
  simp

/-- Concrete empty-collection state for the C10 witness. -/
def c10St : DataManager := DataManager.initializeData ⟨some [], none, 0⟩ 3

/-- Witness for C10 at a concrete empty-collection call. -/
theorem C10_empty_collection_get_next_witness :
    (get_next_record c10St "alice" none none none 4).2.index = none ∧
    (get_next_record c10St "alice" none none none 4).2.record = none ∧
    (get_next_record c10St "alice" none none none 4).2.message =
      some "No available records matching filters" ∧
    (get_next_record c10St "alice" none none none 4).1 =
      cleanup_stale_sessions 4
        { c10St with user_activity := dictSet c10St.user_activity "alice" 4 } :=
  C10_empty_collection_get_next c10St "alice" none none none 4 rfl

/-! ### Specification-side description of the checkout scan -/

/-- The sequence of indices the scan loop examines: `(start + offset) % n`
for `offset = 0 .. n-1` (one full wrap). -/
def wrapCandidates (start : Int) (n : Nat) : List Nat :=
  (List.range n).map (fun (off : Nat) => ((start + (off : Int)) % (n : Int)).toNat)

/-- The coordinator state after the caller's activity refresh, before the
stale-session sweep (src/app.py:336). -/
def afterActivity (st : DataManager) (username : String) (now : Nat) : DataManager :=
  { st with user_activity := dictSet st.user_activity username now }

/-- The coordinator state the scan actually reads: activity refreshed, stale
sessions expired (src/app.py:336-339). -/
def scanState (st : DataManager) (username : String) (now : Nat) : DataManager :=
  cleanup_stale_sessions now (afterActivity st username now)

/-- Acceptance of an index by the scan, phrased against the post-cleanup
state. -/
def scanAccept (st2 : DataManager) (username : String) (fs fls : Option String)
    (idx : Nat) : Bool :=
  acceptIdx st2.in_memory_data (occupiedIndices st2.user_current_record username)
    fs fls idx

theorem wrapCandidates_length (start : Int) (n : Nat) :
    (wrapCandidates start n).length = n := by
  unfold wrapCandidates
  rw [List.length_map, List.length_range]

theorem mem_wrapCandidates_of_lt (start : Int) (n i : Nat) (h : i < n) :
    i ∈ wrapCandidates start n := by
  have hn : 0 < n := Nat.lt_of_le_of_lt (Nat.zero_le i) h
  have hn0 : (n : Int) ≠ 0 := by exact_mod_cast Nat.pos_iff_ne_zero.mp hn
  have hnpos : (0 : Int) < (n : Int) := by exact_mod_cast hn
  have ho1 : 0 ≤ ((i : Int) - start) % (n : Int) := Int.emod_nonneg _ hn0
  have ho2 : ((i : Int) - start) % (n : Int) < (n : Int) := Int.emod_lt_of_pos _ hnpos
  have holt : ((((i : Int) - start) % (n : Int)).toNat) < n := by omega
  refine List.mem_map.mpr
    ⟨(((i : Int) - start) % (n : Int)).toNat, List.mem_range.mpr holt, ?_⟩
  have hocast : (((((i : Int) - start) % (n : Int)).toNat : Nat) : Int) =
      ((i : Int) - start) % (n : Int) := Int.toNat_of_nonneg ho1
  rw [hocast, Int.add_emod_emod]
  have he : start + ((i : Int) - start) = (i : Int) := by ring
  rw [he, Int.emod_eq_of_lt (by exact_mod_cast Nat.zero_le i) (by exact_mod_cast h)]
  simp

theorem wrapCandidates_perm_range (start : Int) (n : Nat) :
    (wrapCandidates start n).Perm (List.range n) := by
  have hsub : List.range n ⊆ wrapCandidates start n := fun i hi =>
    mem_wrapCandidates_of_lt start n i (List.mem_range.mp hi)
  have hsp := List.subperm_of_subset (List.nodup_range n) hsub
  exact (hsp.perm_of_length_le (by simp [wrapCandidates_length])).symm

theorem wrapCandidates_nodup (start : Int) (n : Nat) :
    (wrapCandidates start n).Nodup :=
  (wrapCandidates_perm_range start n).symm.nodup (List.nodup_range n)

theorem mem_wrapCandidates_iff (start : Int) (n i : Nat) :
    i ∈ wrapCandidates start n ↔ i < n := by
  rw [(wrapCandidates_perm_range start n).mem_iff, List.mem_range]

/-- Membership in the stale-user list computed by the sweep, for a user whose
recorded activity time is known. -/
theorem mem_staleList (m : List (String × Nat)) (now : Nat)
    (hnd : (dictKeys m).Nodup) (u : String) (t : Nat)
    (h : dictGet m u = some t) :
    (u ∈ (m.filter (fun p => decide (now - p.2 > 600))).map Prod.fst) ↔
      now - t > 600 := by
  constructor
  · intro hu
    obtain ⟨p, hp, hpu⟩ := List.mem_map.mp hu
    obtain ⟨hpm, hpred⟩ := List.mem_filter.mp hp
    have hget : dictGet m p.1 = some p.2 := dictGet_eq_some_of_mem hnd (by
      have : p = (p.1, p.2) := rfl
      rw [← this]
      exact hpm)
    rw [hpu] at hget
    rw [h] at hget
    cases hget
    exact of_decide_eq_true hpred
  · intro ht
    have hm : (u, t) ∈ m := dictGet_mem h
    refine List.mem_map.mpr ⟨(u, t), List.mem_filter.mpr ⟨hm, decide_eq_true ht⟩, rfl⟩

/-- The stale-user list computed by the sweep inside `get_next_record`. -/
def staleOf (st : DataManager) (username : String) (now : Nat) : List String :=
  ((afterActivity st username now).user_activity.filter
    (fun p => decide (now - p.2 > 600))).map Prod.fst

theorem scanState_user_activity (st : DataManager) (username : String) (now : Nat) :
    (scanState st username now).user_activity =
      (staleOf st username now).foldl (fun m u => dictDel m u)
        (afterActivity st username now).user_activity := rfl

theorem scanState_user_current_record (st : DataManager) (username : String) (now : Nat) :
    (scanState st username now).user_current_record =
      (staleOf st username now).foldl (fun m u => dictDel m u)
        st.user_current_record := rfl

theorem get_next_record_eq (st : DataManager) (username : String) (ci : Option Int)
    (fs fls : Option String) (now : Nat) :
    get_next_record st username ci fs fls now =
      (let st2 := scanState st username now
       let occupied := occupiedIndices st2.user_current_record username
       let start := startIndex ci
       let n := st2.in_memory_data.length
       match (List.range n).find?
           (fun (off : Nat) => acceptIdx st2.in_memory_data occupied fs fls
             ((start + (off : Int)) % (n : Int)).toNat) with
       | some off =>
           let idx := ((start + (off : Int)) % (n : Int)).toNat
           ({ st2 with user_current_record := dictSet st2.user_current_record username idx },
            { index := some idx
              record := st2.in_memory_data[idx]?
              occupied_count := occupied.dedup.length
              active_users := st2.user_activity.map Prod.fst
              message := none })
       | none =>
           (st2,
            { index := none
              record := none
              occupied_count := occupied.dedup.length
              active_users := st2.user_activity.map Prod.fst
              message := some "No available records matching filters" })) := rfl

theorem get_next_record_scan_spec (st : DataManager) (username : String)
    (ci : Option Int) (fs fls : Option String) (now : Nat) :
    (get_next_record st username ci fs fls now).2.index =
      (wrapCandidates (startIndex ci)
        (scanState st username now).in_memory_data.length).find?
          (scanAccept (scanState st username now) username fs fls) ∧
    (∀ idx, (get_next_record st username ci fs fls now).2.index = some idx →
      (get_next_record st username ci fs fls now).1.user_current_record =
        dictSet (scanState st username now).user_current_record username idx ∧
      (get_next_record st username ci fs fls now).2.record =
        (scanState st username now).in_memory_data[idx]? ∧
      scanAccept (scanState st username now) username fs fls idx = true) ∧
    ((get_next_record st username ci fs fls now).2.index = none →
      (get_next_record st username ci fs fls now).1 = scanState st username now ∧
      (get_next_record st username ci fs fls now).2.record = none ∧
      (get_next_record st username ci fs fls now).2.message =
        some "No available records matching filters") := by
  have hfm : (wrapCandidates (startIndex ci)
        (scanState st username now).in_memory_data.length).find?
          (scanAccept (scanState st username now) username fs fls) =
      ((List.range (scanState st username now).in_memory_data.length).find?
        (fun (off : Nat) => acceptIdx (scanState st username now).in_memory_data
          (occupiedIndices (scanState st username now).user_current_record username)
          fs fls ((startIndex ci + (off : Int)) %
            ((scanState st username now).in_memory_data.length : Int)).toNat)).map
        (fun (off : Nat) => ((startIndex ci + (off : Int)) %
          ((scanState st username now).in_memory_data.length : Int)).toNat) := by
    unfold wrapCandidates
    rw [List.find?_map]
    rfl
  rw [get_next_record_eq]
  dsimp only
  split
  · next off heq =>
    refine ⟨?_, ?_, ?_⟩
    · rw [hfm, heq]
      rfl
    · intro idx hidx
      have hidx' : ((startIndex ci + (off : Int)) %
          ((scanState st username now).in_memory_data.length : Int)).toNat = idx := by
        exact Option.some.inj hidx
      subst hidx'
      refine ⟨rfl, rfl, ?_⟩
      have hacc := List.find?_some heq
      exact hacc
    · intro hnone
      exact absurd hnone (by simp)
  · next heq =>
    refine ⟨?_, ?_, ?_⟩
    · rw [hfm, heq]
      rfl
    · intro idx hidx
      exact absurd hidx (by simp)
    · intro _
      exact ⟨rfl, rfl, rfl⟩

/-- C8: `get_next_record` first expires every session inactive for more than
the 10-minute window (releasing its checkout and leaving fresh sessions
intact), then scans the indices `(start+1+offset) mod n` for one full wrap —
a duplicate-free candidate list covering every index exactly once — and
returns the first candidate that is neither checked out by another session
nor rejected by the truthy `Status`/`LLMStatus` filters, checking it out as
the caller's record; if the full wrap finds no acceptable index it returns
the no-match sentinel (no error), leaving the swept state unchanged. -/
theorem C8_get_next_scan_algorithm :
    ∀ (st : DataManager) (username : String) (ci : Option Int)
      (fs fls : Option String) (now : Nat),
      (dictKeys st.user_activity).Nodup →
      (dictKeys st.user_current_record).Nodup →
      (∀ u t, dictGet (afterActivity st username now).user_activity u = some t →
        (now - t > 600 →
          dictGet (scanState st username now).user_activity u = none ∧
          dictGet (scanState st username now).user_current_record u = none) ∧
        (now - t ≤ 600 →
          dictGet (scanState st username now).user_activity u = some t ∧
          dictGet (scanState st username now).user_current_record u =
            dictGet st.user_current_record u)) ∧
      (wrapCandidates (startIndex ci)
        (scanState st username now).in_memory_data.length).Nodup ∧
      (wrapCandidates (startIndex ci)
        (scanState st username now).in_memory_data.length).length =
          (scanState st username now).in_memory_data.length ∧
      (∀ i, i ∈ wrapCandidates (startIndex ci)
          (scanState st username now).in_memory_data.length ↔
        i < (scanState st username now).in_memory_data.length) ∧
      (get_next_record st username ci fs fls now).2.index =
        (wrapCandidates (startIndex ci)
          (scanState st username now).in_memory_data.length).find?
            (scanAccept (scanState st username now) username fs fls) ∧
      (∀ idx, (get_next_record st username ci fs fls now).2.index = some idx →
        (get_next_record st username ci fs fls now).1.user_current_record =
          dictSet (scanState st username now).user_current_record username idx ∧
        (get_next_record st username ci fs fls now).2.record =
          (scanState st username now).in_memory_data[idx]? ∧
        scanAccept (scanState st username now) username fs fls idx = true) ∧
      ((get_next_record st username ci fs fls now).2.index = none →
        (get_next_record st username ci fs fls now).1 = scanState st username now ∧
        (get_next_record st username ci fs fls now).2.record = none ∧
        (get_next_record st username ci fs fls now).2.message =
          some "No available records matching filters") := by
  intro st username ci fs fls now hua hucr
  have hA : (dictKeys (afterActivity st username now).user_activity).Nodup :=
    nodup_dictKeys_dictSet _ _ _ hua
  refine ⟨?_, wrapCandidates_nodup _ _, wrapCandidates_length _ _,
    fun i => mem_wrapCandidates_iff _ _ i,
    (get_next_record_scan_spec st username ci fs fls now).1,
    (get_next_record_scan_spec st username ci fs fls now).2.1,
    (get_next_record_scan_spec st username ci fs fls now).2.2⟩
  intro u t h
  have hs := mem_staleList (afterActivity st username now).user_activity now hA u t h
  constructor
  · intro hstale
    have hmem : u ∈ staleOf st username now := hs.mpr hstale
    constructor
    · rw [scanState_user_activity, dictGet_foldl_dictDel _ _ hA, if_pos hmem]
    · rw [scanState_user_current_record, dictGet_foldl_dictDel _ _ hucr, if_pos hmem]
  · intro hfresh
    have hnmem : u ∉ staleOf st username now := fun hm => by
      have := hs.mp hm
      omega
    constructor
    · rw [scanState_user_activity, dictGet_foldl_dictDel _ _ hA, if_neg hnmem]
      exact h
    · rw [scanState_user_current_record, dictGet_foldl_dictDel _ _ hucr, if_neg hnmem]

/-- Witness for C8 at a concrete two-record state, discharging the
duplicate-free-session hypotheses. -/
theorem C8_get_next_scan_algorithm_witness :
    (get_next_record c4St0 "alice" none (some "Pending") none 1).2.index =
      (wrapCandidates (startIndex none)
        (scanState c4St0 "alice" 1).in_memory_data.length).find?
          (scanAccept (scanState c4St0 "alice" 1) "alice" (some "Pending") none) :=
  (C8_get_next_scan_algorithm c4St0 "alice" none (some "Pending") none 1
    (by decide) (by decide)).2.2.2.2.1

/-! ### The checkout exclusivity invariant -/

/-- Sessions are a genuine dict (duplicate-free keys in both maps) and no two
distinct users hold the same checked-out index. -/
def CheckoutInv (st : DataManager) : Prop :=
  (dictKeys st.user_activity).Nodup ∧
  (dictKeys st.user_current_record).Nodup ∧
  ∀ u v iu iv, u ≠ v → dictGet st.user_current_record u = some iu →
    dictGet st.user_current_record v = some iv → iu ≠ iv

theorem acceptIdx_not_occupied (data : List Record) (occ : List Nat)
    (fs fls : Option String) (idx : Nat)
    (h : acceptIdx data occ fs fls idx = true) : ¬ idx ∈ occ := by
  intro hmem
  unfold acceptIdx at h
  rw [if_pos hmem] at h
  cases h

theorem mem_occupiedIndices (ucr : List (String × Nat)) (username v : String)
    (iv : Nat) (hne : v ≠ username) (h : dictGet ucr v = some iv) :
    iv ∈ occupiedIndices ucr username := by
  have hm : (v, iv) ∈ ucr := dictGet_mem h
  refine List.mem_map.mpr ⟨(v, iv), List.mem_filter.mpr ⟨hm, ?_⟩, rfl⟩
  simp [hne]

theorem checkoutInv_scanState (st : DataManager) (username : String) (now : Nat)
    (h : CheckoutInv st) : CheckoutInv (scanState st username now) := by
  obtain ⟨h1, h2, h3⟩ := h
  have hA : (dictKeys (afterActivity st username now).user_activity).Nodup :=
    nodup_dictKeys_dictSet _ _ _ h1
  have hget : ∀ u i, dictGet (scanState st username now).user_current_record u = some i →
      dictGet st.user_current_record u = some i := by
    intro u i hg
    rw [scanState_user_current_record, dictGet_foldl_dictDel _ _ h2] at hg
    by_cases hm : u ∈ staleOf st username now
    · rw [if_pos hm] at hg
      cases hg
    · rwa [if_neg hm] at hg
  refine ⟨?_, ?_, ?_⟩
  · rw [scanState_user_activity]
    exact nodup_dictKeys_of_sublist (foldl_dictDel_sublist _ _) hA
  · rw [scanState_user_current_record]
    exact nodup_dictKeys_of_sublist (foldl_dictDel_sublist _ _) h2
  · exact fun u v iu iv huv hu hv => h3 u v iu iv huv (hget u iu hu) (hget v iv hv)

theorem checkoutInv_get_next (st : DataManager) (username : String) (ci : Option Int)
    (fs fls : Option String) (now : Nat) (h : CheckoutInv st) :
    CheckoutInv (get_next_record st username ci fs fls now).1 := by
  obtain ⟨hs1, hs2, hs3⟩ := checkoutInv_scanState st username now h
  rw [get_next_record_eq]
  dsimp only
  split
  · next off heq =>
    have hacc := List.find?_some heq
    have hocc := acceptIdx_not_occupied _ _ _ _ _ hacc
    refine ⟨hs1, nodup_dictKeys_dictSet _ _ _ hs2, ?_⟩
    intro u v iu iv huv hu hv
    rw [dictGet_dictSet] at hu hv
    by_cases hu1 : u = username
    · rw [if_pos hu1] at hu
      have hv1 : ¬v = username := fun hv1 => huv (hu1.trans hv1.symm)
      rw [if_neg hv1] at hv
      cases hu
      intro he
      exact hocc (he ▸ mem_occupiedIndices _ username v iv hv1 hv)
    · rw [if_neg hu1] at hu
      by_cases hv1 : v = username
      · rw [if_pos hv1] at hv
        cases hv
        intro he
        exact hocc (he ▸ mem_occupiedIndices _ username u iu hu1 hu)
      · rw [if_neg hv1] at hv
        exact hs3 u v iu iv huv hu hv
  · exact ⟨hs1, hs2, hs3⟩

theorem checkoutInv_save (st : DataManager) (disk : Disk) (now : Nat)
    (fault : FlushFault) (h : CheckoutInv st) :
    CheckoutInv (save_to_disk st disk now fault).1 := by
  refine ⟨?_, ?_, ?_⟩
  · rw [(save_to_disk_frame _ _ _ _).2.2.1]
    exact h.1
  · rw [(save_to_disk_frame _ _ _ _).2.2.2.1]
    exact h.2.1
  · intro u v iu iv huv hu hv
    rw [(save_to_disk_frame _ _ _ _).2.2.2.1] at hu hv
    exact h.2.2 u v iu iv huv hu hv

theorem checkoutInv_activity_bump (st : DataManager) (username : String) (now : Nat)
    (h : CheckoutInv st) :
    CheckoutInv { st with user_activity := dictSet st.user_activity username now } :=
  ⟨nodup_dictKeys_dictSet _ _ _ h.1, h.2.1, h.2.2⟩

theorem nodup_dictKeys_ite {α : Type} (c : Prop) [Decidable c]
    (m : List (String × α)) (k : String) (v : α) (h : (dictKeys m).Nodup) :
    (dictKeys (if c then dictSet m k v else m)).Nodup := by
  split
  · exact nodup_dictKeys_dictSet _ _ _ h
  · exact h

theorem checkoutInv_update (threshold : Nat) (st : DataManager) (disk : Disk)
    (index : Int) (updates : List (String × JValue)) (username : Option String)
    (now : Nat) (fault : FlushFault) (h : CheckoutInv st) :
    CheckoutInv (update_record threshold st disk index updates username now fault).1 := by
  by_cases hidx : index < 0 ∨ (st.in_memory_data.length : Int) ≤ index
  · simp only [update_record, if_pos hidx]
    exact h
  · simp only [update_record, if_neg hidx]
    split
    · exact checkoutInv_save _ _ _ _
        ⟨nodup_dictKeys_ite _ _ _ _ h.1, h.2.1, h.2.2⟩
    · exact ⟨nodup_dictKeys_ite _ _ _ _ h.1, h.2.1, h.2.2⟩

theorem checkoutInv_replace (st : DataManager) (disk : Disk) (new_data : List Record)
    (username expected : Option String) (now : Nat) (fault : FlushFault)
    (h : CheckoutInv st) :
    CheckoutInv (replace_all_data st disk new_data username expected now fault).1 := by
  by_cases hc : truthyStr expected = true ∧ expected.getD "" ≠ st.data_version
  · simp only [replace_all_data, if_pos hc]
    exact h
  · simp only [replace_all_data, if_neg hc]
    exact checkoutInv_save _ _ _ _ ⟨h.1, h.2.1, h.2.2⟩

theorem checkoutInv_get_data (st : DataManager) (username : Option String) (now : Nat)
    (h : CheckoutInv st) : CheckoutInv (get_data st username now).1 := by
  unfold get_data
  dsimp only
  split
  · exact ⟨nodup_dictKeys_dictSet _ _ _ h.1, h.2.1, h.2.2⟩
  · exact h

theorem checkoutInv_step (threshold : Nat) (s : DataManager × Disk) (op : Op)
    (h : CheckoutInv s.1) : CheckoutInv (step threshold s op).1 := by
  cases op with
  | update index updates username now fault =>
    exact checkoutInv_update threshold s.1 s.2 index updates username now fault h
  | replaceAll newData username expected now fault =>
    exact checkoutInv_replace s.1 s.2 newData username expected now fault h
  | getNext username ci fs fls now =>
    exact checkoutInv_get_next s.1 username ci fs fls now h
  | getSnapshot username now => exact checkoutInv_get_data s.1 username now h
  | forceFlush now fault => exact checkoutInv_save s.1 s.2 now fault h
  | checkFlush now fault =>
    show CheckoutInv (check_and_save threshold s.1 s.2 now fault).1
    unfold check_and_save
    split
    · exact checkoutInv_save _ _ _ _ h
    · exact h

theorem checkoutInv_initState (disk : Disk) (now : Nat) :
    CheckoutInv (DataManager.initializeData disk now) :=
  ⟨List.nodup_nil, List.nodup_nil, fun _ _ _ _ _ hu _ => Option.noConfusion hu⟩

theorem checkoutInv_run (threshold : Nat) (ops : List Op) :
    ∀ s : DataManager × Disk, CheckoutInv s.1 → CheckoutInv (run threshold s ops).1 := by
  induction ops with
  | nil => exact fun _ h => h
  | cons op ops ih =>
    intro s h
    exact ih (step threshold s op) (checkoutInv_step threshold s op h)

/-- Disk holding the two matching records of the C7 scenario. -/
def c7Disk : Disk :=
  ⟨some [[("Status", JValue.str "Pending")], [("Status", JValue.str "Pending")]], none, 0⟩

/-- Initial load of the C7 scenario. -/
def c7St0 : DataManager := DataManager.initializeData c7Disk 0

/-- First checkout call of the C7 scenario (user `alice`). -/
def c7Run1 : DataManager × NextResult :=
  get_next_record c7St0 "alice" none (some "Pending") none 1

/-- Second checkout call (user `bob`). -/
def c7Run2 : DataManager × NextResult :=
  get_next_record c7Run1.1 "bob" none (some "Pending") none 2

/-- Third checkout call (user `carol`), after the matching set is exhausted. -/
def c7Run3 : DataManager × NextResult :=
  get_next_record c7Run2.1 "carol" none (some "Pending") none 3

/-- C7: in every state reachable from an initial load by any sequence of
coordinator operations, the session maps are genuine dicts and no two
distinct users ever hold the same checked-out index; and in the concrete
two-matching-record scenario, `alice` and `bob` receive the distinct indices
0 and 1, after which a third user's call returns the no-match sentinel. -/
theorem C7_checkout_exclusivity :
    (∀ (threshold : Nat) (disk0 : Disk) (now0 : Nat) (ops : List Op),
      CheckoutInv (run threshold (DataManager.initializeData disk0 now0, disk0) ops).1) ∧
    (c7Run1.2.index = some 0 ∧ c7Run2.2.index = some 1 ∧
     c7Run1.2.index ≠ c7Run2.2.index ∧ c7Run3.2.index = none ∧
     c7Run3.2.message = some "No available records matching filters") := by
  constructor
  · intro threshold disk0 now0 ops
    exact checkoutInv_run threshold ops (DataManager.initializeData disk0 now0, disk0)
      (checkoutInv_initState disk0 now0)
  · refine ⟨by decide, by decide, by decide, by decide, by decide⟩

/-! ### Canonicalization of the fingerprint -/

/-- Two records are equal as key-value maps: both are genuine dicts and every
key (of either) looks up to the same value in both. -/
def RecordEqAsMap (r1 r2 : Record) : Prop :=
  (dictKeys r1).Nodup ∧ (dictKeys r2).Nodup ∧
  ∀ k ∈ dictKeys r1 ++ dictKeys r2, dictGet r1 k = dictGet r2 k

instance (r1 r2 : Record) : Decidable (RecordEqAsMap r1 r2) := by
  unfold RecordEqAsMap
  infer_instance

instance : IsTotal (String × JValue) (fun p q => p.1 ≤ q.1) :=
  ⟨fun a b => le_total a.1 b.1⟩

instance : IsTrans (String × JValue) (fun p q => p.1 ≤ q.1) :=
  ⟨fun _ _ _ hab hbc => le_trans hab hbc⟩

instance : IsAntisymm (String × JValue) (fun p q => p.1 < q.1) :=
  ⟨fun _ _ h1 h2 => absurd h2 (lt_asymm h1)⟩

theorem recordEqAsMap_get {r1 r2 : Record} (h : RecordEqAsMap r1 r2) (k : String) :
    dictGet r1 k = dictGet r2 k := by
  by_cases hk : k ∈ dictKeys r1 ++ dictKeys r2
  · exact h.2.2 k hk
  · rw [List.mem_append, not_or] at hk
    rw [dictGet_eq_none_of_not_mem hk.1, dictGet_eq_none_of_not_mem hk.2]

theorem recordEqAsMap_perm {r1 r2 : Record} (h : RecordEqAsMap r1 r2) : r1.Perm r2 := by
  refine (List.perm_ext_iff_of_nodup (List.Nodup.of_map Prod.fst h.1)
    (List.Nodup.of_map Prod.fst h.2.1)).mpr ?_
  intro a
  constructor
  · intro hm
    have hg : dictGet r1 a.1 = some a.2 := dictGet_eq_some_of_mem h.1 hm
    rw [recordEqAsMap_get h] at hg
    exact dictGet_mem hg
  · intro hm
    have hg : dictGet r2 a.1 = some a.2 := dictGet_eq_some_of_mem h.2.1 hm
    rw [← recordEqAsMap_get h] at hg
    exact dictGet_mem hg

theorem sortKeysRec_eq_of_recordEqAsMap {r1 r2 : Record} (h : RecordEqAsMap r1 r2) :
    sortKeysRec r1 = sortKeysRec r2 := by
  have hperm : (sortKeysRec r1).Perm (sortKeysRec r2) :=
    ((List.perm_insertionSort _ r1).trans (recordEqAsMap_perm h)).trans
      (List.perm_insertionSort _ r2).symm
  have hs1 := List.sorted_insertionSort (fun p q : String × JValue => p.1 ≤ q.1) r1
  have hs2 := List.sorted_insertionSort (fun p q : String × JValue => p.1 ≤ q.1) r2
  have hn1 : (dictKeys (sortKeysRec r1)).Nodup :=
    (((List.perm_insertionSort (fun p q : String × JValue => p.1 ≤ q.1) r1).map
      Prod.fst).symm).nodup h.1
  have hn2 : (dictKeys (sortKeysRec r2)).Nodup :=
    (((List.perm_insertionSort (fun p q : String × JValue => p.1 ≤ q.1) r2).map
      Prod.fst).symm).nodup h.2.1
  have hne1 : List.Pairwise (fun p q : String × JValue => p.1 ≠ q.1) (sortKeysRec r1) :=
    List.pairwise_map.mp hn1
  have hne2 : List.Pairwise (fun p q : String × JValue => p.1 ≠ q.1) (sortKeysRec r2) :=
    List.pairwise_map.mp hn2
  have hlt1 : List.Pairwise (fun p q : String × JValue => p.1 < q.1) (sortKeysRec r1) :=
    (List.Pairwise.and hs1 hne1).imp (fun hab => lt_of_le_of_ne hab.1 hab.2)
  have hlt2 : List.Pairwise (fun p q : String × JValue => p.1 < q.1) (sortKeysRec r2) :=
    (List.Pairwise.and hs2 hne2).imp (fun hab => lt_of_le_of_ne hab.1 hab.2)
  exact List.eq_of_perm_of_sorted hperm hlt1 hlt2

theorem jsonRecord_eq_of_recordEqAsMap {r1 r2 : Record} (h : RecordEqAsMap r1 r2) :
    jsonRecord r1 = jsonRecord r2 := by
  unfold jsonRecord
  rw [sortKeysRec_eq_of_recordEqAsMap h]

theorem canonicalJson_eq_of_forall₂ {c1 c2 : List Record}
    (h : List.Forall₂ RecordEqAsMap c1 c2) : canonicalJson c1 = canonicalJson c2 := by
  unfold canonicalJson
  have hmap : c1.map jsonRecord = c2.map jsonRecord := by
    induction h with
    | nil => rfl
    | cons hr ht ih => simp only [List.map_cons, ih, jsonRecord_eq_of_recordEqAsMap hr]
  rw [hmap]

/-- C9: the fingerprint is a pure function of the collection content —
collections that agree record-by-record as key-value maps (any field
insertion order) have equal digests, because the canonical serialization
sorts each record's keys; whereas exchanging two distinct records changes
the canonical serialization that is digested (record order matters). -/
theorem C9_fingerprint_canonicalization :
    (∀ c1 c2 : List Record, List.Forall₂ RecordEqAsMap c1 c2 →
      computeHash c1 = computeHash c2) ∧
    (canonicalJson [[("A", JValue.str "1")], [("A", JValue.str "2")]] ≠
       canonicalJson [[("A", JValue.str "2")], [("A", JValue.str "1")]] ∧
     List.Perm [[("A", JValue.str "1")], [("A", JValue.str "2")]]
       [[("A", JValue.str "2")], [("A", JValue.str "1")]] ∧
     ([("A", JValue.str "1")] : Record) ≠ [("A", JValue.str "2")]) := by
  refine ⟨?_, by decide, List.Perm.swap _ _ _, by decide⟩
  intro c1 c2 h
  unfold computeHash
  rw [canonicalJson_eq_of_forall₂ h]

/-- Witness for C9: two single-record collections whose record stores the
same fields in opposite insertion orders digest identically. -/
theorem C9_fingerprint_canonicalization_witness :
    computeHash [[("A", JValue.str "1"), ("B", JValue.num 2)]] =
      computeHash [[("B", JValue.num 2), ("A", JValue.str "1")]] :=
  C9_fingerprint_canonicalization.1 _ _
    (List.Forall₂.cons (by decide) List.Forall₂.nil)

/-- Witness for C7 at a concrete run, applying the invariant conjunct to an
explicit operation sequence. -/
theorem C7_checkout_exclusivity_witness :
    CheckoutInv (run 3 (DataManager.initializeData ⟨none, none, 0⟩ 0, ⟨none, none, 0⟩)
      [Op.getNext "alice" none none none 1]).1 :=
  C7_checkout_exclusivity.1 3 ⟨none, none, 0⟩ 0 [Op.getNext "alice" none none none 1]
